import Mathlib

/-!
# Tower-defense simulation engine: a shallow embedding

This file embeds the core simulation engine of the `tower-defense`
repository (Go backend, `internal/game/...`) in Lean 4 and proves, or
refutes, the frozen specification claims about it.

Modelling conventions, stated once:

* Go `float64` quantities (positions, ranges, speeds, timestamps) are
  modelled as exact rationals `ℚ`; Go `int` as `ℤ`.  Timestamps
  (`time.Time`) are rationals counting seconds; `time.Since(t)` at the
  current instant `now` is `now - t`, and `time.Now().Add(-time.Hour)`
  is `now - 3600`.
* The source compares Euclidean distances `math.Sqrt(dx*dx+dy*dy)`
  against thresholds.  The embedding compares the *squared* distance
  `dist2` against the squared threshold, which agrees with the source
  whenever the threshold is nonnegative (`sqrt d ≤ r ↔ 0 ≤ r ∧ d ≤ r²`,
  `sqrt d < r ↔ d < r²` for `0 ≤ r`); theorems carry the nonnegativity
  hypotheses where they matter.  Note that `Game.isValidPlacement`'s
  path check and `distanceToSegment` in the source never take a square
  root at all, so those are translated verbatim.
* Go's `uuid.New().String()` identifier generation is modelled by a
  counter `nextId : ℕ` threaded through entity construction; entity ids
  are naturals.  `World`'s hash maps are modelled as lists, map
  iteration order as list order, and `map[id]` lookup as `List.find?`
  on the id (ids are unique in every reachable world).
* `math/rand` is modelled as a pre-drawn stream of naturals `List ℕ`;
  `rng.Intn n` consumes the head `r` and yields `r % n`.
* Callbacks (`onReward`, `onLifeLost`) are modelled by returning the
  event list / count from the stage and folding it into the game state
  exactly as the callbacks registered in `NewGame` do.
-/

namespace TD

/-- A 2D point, `ecs.Position`. -/
structure Pos where
  x : ℚ
  y : ℚ
deriving DecidableEq

/-- Squared Euclidean distance `dx*dx + dy*dy` between two points. -/
def dist2 (a b : Pos) : ℚ :=
  (a.x - b.x) * (a.x - b.x) + (a.y - b.y) * (a.y - b.y)

/-- Truncation of a rational toward zero, Go's `int(f)` conversion. -/
def truncQ (q : ℚ) : ℤ :=
  if 0 ≤ q then ⌊q⌋ else -⌊-q⌋

/-- Go's truncated integer division `a / b` (used only with `b = 2` and
nonnegative `a` in the source, where all integer-division conventions
agree). -/
def goDiv (a b : ℤ) : ℤ :=
  if 0 ≤ a then a / b else -((-a) / b)

/-! ## Configuration (`config.GameConfig`, loaded from `balance.yaml`) -/

/-- `config.TowerConfig`. -/
structure TowerCfg where
  cost : ℤ
  range : ℚ
  damage : ℤ
  fireRate : ℚ
  splashRadius : ℚ
deriving DecidableEq

/-- `config.EnemyConfig`. -/
structure EnemyCfg where
  hp : ℤ
  speed : ℚ
  goldReward : ℤ
  scoreReward : ℤ
deriving DecidableEq

/-- `config.ProjectileConfig`. -/
structure ProjCfg where
  speed : ℚ
deriving DecidableEq

/-- `config.WaveComposition` (per-kind counts; nonnegative in every
shipped configuration, so modelled as naturals). -/
structure WaveComp where
  basic : ℕ
  fast : ℕ
  tank : ℕ
  boss : ℕ
deriving DecidableEq

/-- The wave table of `config.WaveConfig` (only the fields the engine
reads). -/
structure WavesCfg where
  hpScalePerWave : ℚ
  early : WaveComp
  mid : WaveComp
  late : WaveComp
  bossW : WaveComp
deriving DecidableEq

/-- `config.PlacementConfig`. -/
structure PlacementCfg where
  minDistanceFromPath : ℚ
  minTowerSpacing : ℚ
  maxTowers : ℤ
deriving DecidableEq

/-- `config.GameConfig`: the immutable balance tables.  Archetype maps
are association lists keyed by name. -/
structure GameCfg where
  startingGold : ℤ
  startingLives : ℤ
  towers : List (String × TowerCfg)
  enemies : List (String × EnemyCfg)
  projectiles : List (String × ProjCfg)
  waves : WavesCfg
  path : List Pos
  placement : PlacementCfg
deriving DecidableEq

/-- `GameConfig.GetTowerConfig`: lookup by name, `none` for an unknown
archetype. -/
def getTowerConfig (c : GameCfg) (t : String) : Option TowerCfg :=
  (c.towers.find? (fun kv => kv.1 = t)).map (fun kv => kv.2)

/-- `GameConfig.GetEnemyConfig`. -/
def getEnemyConfig (c : GameCfg) (t : String) : Option EnemyCfg :=
  (c.enemies.find? (fun kv => kv.1 = t)).map (fun kv => kv.2)

/-- `GameConfig.GetProjectileConfig`. -/
def getProjectileConfig (c : GameCfg) (t : String) : Option ProjCfg :=
  (c.projectiles.find? (fun kv => kv.1 = t)).map (fun kv => kv.2)

/-- `GameConfig.GetWaveComposition`: boss tier every 10th wave, early for
waves ≤ 5, mid for waves ≤ 10, late otherwise.  (`wave` is always
nonnegative at call sites, so Lean's `%` agrees with Go's.) -/
def getWaveComposition (c : GameCfg) (wave : ℤ) : WaveComp :=
  if wave % 10 = 0 then c.waves.bossW
  else if wave ≤ 5 then c.waves.early
  else if wave ≤ 10 then c.waves.mid
  else c.waves.late

/-- `GameConfig.ScaleEnemyHP`: hp scaled linearly by wave, truncated to
an integer; unscaled for wave ≤ 1. -/
def scaleEnemyHP (c : GameCfg) (baseHP : ℤ) (wave : ℤ) : ℤ :=
  if wave ≤ 1 then baseHP
  else truncQ ((baseHP : ℚ) * (1 + ((wave : ℚ) - 1) * (c.waves.hpScalePerWave - 1)))

/-! ## Entities (`ecs.TowerEntity`, `ecs.EnemyEntity`,
`ecs.ProjectileEntity`) -/

/-- `ecs.TowerEntity`. -/
structure Tower where
  id : ℕ
  towerType : String
  pos : Pos
  alive : Bool
  range : ℚ
  damage : ℤ
  fireRate : ℚ
  splashRadius : ℚ
  lastShot : ℚ
deriving DecidableEq

/-- `ecs.EnemyEntity`. -/
structure Enemy where
  id : ℕ
  enemyType : String
  pos : Pos
  alive : Bool
  hp : ℤ
  maxHp : ℤ
  speed : ℚ
  pathIndex : ℤ
  goldReward : ℤ
  scoreReward : ℤ
deriving DecidableEq

/-- `ecs.ProjectileEntity`. -/
structure Projectile where
  id : ℕ
  projectileType : String
  pos : Pos
  alive : Bool
  target : ℕ
  speed : ℚ
  damage : ℤ
  splashRadius : ℚ
deriving DecidableEq

/-- `EnemyEntity.TakeDamage`: subtract, clamp at 0 and mark dead when
the result is ≤ 0. -/
def takeDamage (e : Enemy) (d : ℤ) : Enemy :=
  let hp := e.hp - d
  if hp ≤ 0 then { e with hp := 0, alive := false } else { e with hp := hp }

/-- `TowerEntity.CanShoot`: elapsed time since the last shot is at least
`1/fireRate`.  (For `fireRate = 0` Go yields `+Inf` and never shoots;
theorems about firing carry `0 < fireRate`, true of every archetype.) -/
def canShoot (now : ℚ) (t : Tower) : Bool :=
  1 / t.fireRate ≤ now - t.lastShot

/-! ## World (`ecs.World`): maps modelled as lists -/

/-- `ecs.World`: the entity store, one list per kind. -/
structure World where
  towers : List Tower
  enemies : List Enemy
  projectiles : List Projectile
deriving DecidableEq

/-- `World.GetEnemies`: alive enemies only. -/
def getEnemies (w : World) : List Enemy :=
  w.enemies.filter (fun e => e.alive)

/-- `World.GetTowers`: alive towers only. -/
def getTowers (w : World) : List Tower :=
  w.towers.filter (fun t => t.alive)

/-- `World.GetProjectiles`: alive projectiles only. -/
def getProjectiles (w : World) : List Projectile :=
  w.projectiles.filter (fun p => p.alive)

/-- `World.GetEnemy`: id lookup in the enemy index (dead entities
included until cleanup). -/
def getEnemy (w : World) (id : ℕ) : Option Enemy :=
  w.enemies.find? (fun e => e.id = id)

/-- `World.TowerCount`: number of alive towers. -/
def towerCount (w : World) : ℕ :=
  (w.towers.filter (fun t => t.alive)).length

/-- `World.CleanupDeadEntities`: drop every entity whose alive flag is
false, from every index. -/
def cleanupDead (w : World) : World :=
  { towers := w.towers.filter (fun t => t.alive)
    enemies := w.enemies.filter (fun e => e.alive)
    projectiles := w.projectiles.filter (fun p => p.alive) }

/-! ## Entity factory (`ecs.EntityFactory`) -/

/-- `EntityFactory.CreateTower`: stats from the archetype; the cooldown
stamp is one hour in the past so the tower can fire immediately. -/
def createTower (c : GameCfg) (tt : String) (p : Pos) (now : ℚ) (nid : ℕ) :
    Option (Tower × ℕ) :=
  (getTowerConfig c tt).map fun cfg =>
    (⟨nid, tt, p, true, cfg.range, cfg.damage, cfg.fireRate, cfg.splashRadius,
      now - 3600⟩, nid + 1)

/-- `EntityFactory.CreateEnemy`: hp scaled by wave; path index 0. -/
def createEnemy (c : GameCfg) (et : String) (p : Pos) (wave : ℤ) (nid : ℕ) :
    Option (Enemy × ℕ) :=
  (getEnemyConfig c et).map fun cfg =>
    let hp := scaleEnemyHP c cfg.hp wave
    (⟨nid, et, p, true, hp, hp, cfg.speed, 0, cfg.goldReward, cfg.scoreReward⟩,
      nid + 1)

/-- `EntityFactory.CreateProjectile`: speed from the projectile
archetype, damage and splash radius from the firing tower. -/
def createProjectile (c : GameCfg) (pt : String) (p : Pos) (target : ℕ)
    (damage : ℤ) (splash : ℚ) (nid : ℕ) : Option (Projectile × ℕ) :=
  (getProjectileConfig c pt).map fun cfg =>
    (⟨nid, pt, p, true, target, cfg.speed, damage, splash⟩, nid + 1)

/-- The `createN` helper of `EntityFactory.CreateEnemiesForWave`: `count`
enemies of one kind, appended in order. -/
def createMany (c : GameCfg) (et : String) (count : ℕ) (p : Pos) (wave : ℤ)
    (nid : ℕ) : Option (List Enemy × ℕ) :=
  match count with
  | 0 => some ([], nid)
  | k + 1 =>
    match createEnemy c et p wave nid with
    | none => none
    | some (e, nid') =>
      match createMany c et k p wave nid' with
      | none => none
      | some (es, nid'') => some (e :: es, nid'')

/-- `EntityFactory.CreateEnemiesForWave`: one enemy per count unit in the
fixed kind order basic, fast, tank, boss (each kind only looked up when
its count is positive); `none` (`EmptyWave`) if the batch is empty. -/
def createEnemiesForWave (c : GameCfg) (wave : ℤ) (p : Pos) (nid : ℕ) :
    Option (List Enemy × ℕ) :=
  let comp := getWaveComposition c wave
  let step := fun (acc : Option (List Enemy × ℕ)) (kv : String × ℕ) =>
    match acc with
    | none => none
    | some (es, n) =>
      if kv.2 > 0 then
        match createMany c kv.1 kv.2 p wave n with
        | none => none
        | some (es', n') => some (es ++ es', n')
      else some (es, n)
  match [("basic", comp.basic), ("fast", comp.fast), ("tank", comp.tank),
      ("boss", comp.boss)].foldl step (some ([], nid)) with
  | none => none
  | some (es, n) => if es.isEmpty then none else some (es, n)

/-! ## Wave system (`systems.WaveSystem`) -/

/-- The mutable fields of `systems.WaveSystem`; the RNG is a pre-drawn
stream of naturals. -/
structure WaveSys where
  currentWave : ℤ
  remainingInWave : ℤ
  nextEnemySpawn : ℚ
  lastWaveTime : ℚ
  waveInterval : ℚ
  rng : List ℕ
deriving DecidableEq

/-- Consume the next pre-drawn random value (the stream is never
exhausted in any concrete run considered here). -/
def takeRand (rs : List ℕ) : ℕ × List ℕ :=
  match rs with
  | [] => (0, [])
  | r :: rest => (r, rest)

/-- `WaveSystem.nextSpawnDelay`: `120 + Intn(181)` milliseconds,
expressed in seconds. -/
def nextSpawnDelay (rs : List ℕ) : ℚ × List ℕ :=
  let (r, rs') := takeRand rs
  (((120 : ℚ) + (r % 181 : ℕ)) / 1000, rs')

/-- `WaveSystem.selectEnemyType`: weighted draw over the composition
counts in the fixed order basic, fast, tank, boss. -/
def selectEnemyType (comp : WaveComp) (r : ℕ) : String :=
  let total := comp.basic + comp.fast + comp.tank + comp.boss
  if total = 0 then "basic"
  else
    let roll := r % total
    if roll < comp.basic then "basic"
    else
      let roll := roll - comp.basic
      if roll < comp.fast then "fast"
      else
        let roll := roll - comp.fast
        if roll < comp.tank then "tank" else "boss"

/-- Insert an enemy into the world (`World.AddEntity`). -/
def addEnemy (w : World) (e : Enemy) : World :=
  { w with enemies := w.enemies ++ [e] }

/-- `WaveSystem.spawnWave`: increment the wave counter, construct the
full batch, admit the first batch member immediately, and set
`remainingInWave` exactly as the source does — `len`, then `--` for the
first admit, then `++` once per further batch member (the loop whose
comment says it stores the remaining enemies, but which only counts). -/
def spawnWave (c : GameCfg) (start : Pos) (now : ℚ) (ws : WaveSys)
    (w : World) (nid : ℕ) : WaveSys × World × ℕ :=
  let wave := ws.currentWave + 1
  match createEnemiesForWave c wave start nid with
  | none => ({ ws with currentWave := wave }, w, nid)
  | some (batch, nid') =>
    match batch with
    | [] => ({ ws with currentWave := wave, remainingInWave := 0 }, w, nid')
    | e0 :: rest =>
      let (d, rs') := nextSpawnDelay ws.rng
      ({ ws with
          currentWave := wave
          remainingInWave := (batch.length : ℤ) - 1 + (rest.length : ℤ)
          nextEnemySpawn := now + d
          rng := rs' },
        addEnemy w e0, nid')

/-- `WaveSystem.spawnNextEnemy`: a drip spawn constructs a *fresh*
enemy whose kind is a weighted random draw over the wave's composition
(it does not consult the batch built by `spawnWave`). -/
def spawnNextEnemy (c : GameCfg) (start : Pos) (ws : WaveSys) (w : World)
    (nid : ℕ) : WaveSys × World × ℕ :=
  if ws.remainingInWave ≤ 0 then (ws, w, nid)
  else
    let comp := getWaveComposition c ws.currentWave
    let (r, rs') := takeRand ws.rng
    let et := selectEnemyType comp r
    match createEnemy c et start ws.currentWave nid with
    | none => ({ ws with rng := rs' }, w, nid)
    | some (e, nid') =>
      ({ ws with rng := rs', remainingInWave := ws.remainingInWave - 1 },
        addEnemy w e, nid')

/-- The drip loop of `WaveSystem.Update`, with explicit fuel.  The loop
re-checks `now.After(nextEnemySpawn)` after the body sets
`nextEnemySpawn := now + delay` with `delay ≥ 120 ms > 0`, so the body
runs at most once per tick; the fuel passed by `waveUpdate` is always
sufficient. -/
def dripSpawn (c : GameCfg) (start : Pos) (now : ℚ) :
    ℕ → WaveSys → World → ℕ → WaveSys × World × ℕ
  | 0, ws, w, nid => (ws, w, nid)
  | fuel + 1, ws, w, nid =>
    if 0 < ws.remainingInWave ∧ ws.nextEnemySpawn < now then
      let (ws1, w1, nid1) := spawnNextEnemy c start ws w nid
      let (d, rs') := nextSpawnDelay ws1.rng
      dripSpawn c start now fuel { ws1 with nextEnemySpawn := now + d, rng := rs' }
        w1 nid1
    else (ws, w, nid)

/-- `WaveSystem.Update`: start a new wave when the previous one is
exhausted and the inter-wave interval has elapsed, then drip-spawn. -/
def waveUpdate (c : GameCfg) (start : Pos) (now : ℚ) (ws : WaveSys)
    (w : World) (nid : ℕ) : WaveSys × World × ℕ :=
  let (ws1, w1, nid1) :=
    if ws.remainingInWave = 0 ∧ ws.waveInterval < now - ws.lastWaveTime then
      let r := spawnWave c start now ws w nid
      ({ r.1 with lastWaveTime := now }, r.2.1, r.2.2)
    else (ws, w, nid)
  dripSpawn c start now (ws1.remainingInWave.toNat + 1) ws1 w1 nid1

/-! ## Combat system (`systems.CombatSystem`) -/

/-- Projectile archetype chosen by tower kind (default `"basic"`). -/
def projTypeFor (t : Tower) : String :=
  if t.towerType = "sniper" then "sniper"
  else if t.towerType = "splash" then "splash"
  else "basic"

/-- The target-selection loop of `CombatSystem.Update`: fold over the
enemy list keeping the first enemy strictly closer than the current
minimum; the accumulator's second component is the squared current
minimum distance, initialised to the squared range. -/
def selectTarget (tp : Pos) : List Enemy → Option Enemy × ℚ → Option Enemy × ℚ
  | [], acc => acc
  | e :: rest, acc =>
    selectTarget tp rest
      (if e.alive ∧ dist2 e.pos tp < acc.2 then (some e, dist2 e.pos tp) else acc)

/-- The chosen target for one tower: closest alive enemy strictly within
range, ties broken in favour of the first one encountered. -/
def findTarget (t : Tower) (es : List Enemy) : Option Enemy :=
  (selectTarget t.pos es (none, t.range * t.range)).1

/-- Per-tower step of `CombatSystem.Update`: skip dead or cooling-down
towers; otherwise fire at the selected target, spawning a projectile
carrying the tower's damage and splash radius and resetting the
cooldown — but only when the projectile archetype resolves. -/
def combatTowerStep (c : GameCfg) (now : ℚ) (es : List Enemy) (t : Tower)
    (nid : ℕ) : Tower × Option Projectile × ℕ :=
  if ¬ t.alive then (t, none, nid)
  else if ¬ canShoot now t then (t, none, nid)
  else
    match findTarget t es with
    | none => (t, none, nid)
    | some e =>
      match createProjectile c (projTypeFor t) t.pos e.id t.damage
          t.splashRadius nid with
      | none => (t, none, nid)
      | some (p, nid') => ({ t with lastShot := now }, some p, nid')

/-- `CombatSystem.Update`: the enemy list is snapshotted once; towers
are processed in order, each possibly appending one projectile. -/
def combatUpdate (c : GameCfg) (now : ℚ) (w : World) (nid : ℕ) : World × ℕ :=
  let es := getEnemies w
  let r := w.towers.foldl
    (fun (acc : List Tower × List Projectile × ℕ) t =>
      let (t', p?, nid') := combatTowerStep c now es t acc.2.2
      (acc.1 ++ [t'], acc.2.1 ++ p?.toList, nid'))
    ([], [], nid)
  ({ w with towers := r.1, projectiles := w.projectiles ++ r.2.1 }, r.2.2)

/-! ## Projectile system (`systems.ProjectileSystem`) -/

/-- Splash amount: half the direct damage (integer division), minimum 1. -/
def splashAmount (damage : ℤ) : ℤ :=
  let sd := goDiv damage 2
  if sd < 1 then 1 else sd

/-- `ProjectileSystem.applySplashDamage`: every alive enemy other than
the primary target within the radius of the impact point takes the
splash amount.  (`dist ≤ radius` is `dist2 ≤ radius²`; the call site
guarantees `radius > 0`.) -/
def applySplash (es : List Enemy) (impact : Pos) (radius : ℚ) (damage : ℤ)
    (primary : ℕ) : List Enemy :=
  let sd := splashAmount damage
  es.map fun e =>
    if e.alive ∧ e.id ≠ primary ∧ dist2 e.pos impact ≤ radius * radius then
      takeDamage e sd
    else e

/-- Resolution of one alive projectile against the current enemy list:
a missing or dead target retires the projectile with no damage; a
reachable target takes the direct damage (plus splash around it when
the radius is positive) and the projectile dies; otherwise the
projectile stays alive and flies on.  (`dist ≤ mv` is
`0 ≤ mv ∧ dist2 ≤ mv²`; the in-flight position advance of the final
branch is not modelled — it is invisible to every other entity within
the stage and no verified claim observes projectile positions across
ticks.)  Returns the updated enemies and the projectile's alive flag. -/
def resolveProjectile (dt : ℚ) (p : Projectile) (es : List Enemy) :
    List Enemy × Bool :=
  match es.find? (fun e => e.id = p.target) with
  | none => (es, false)
  | some t =>
    if ¬ t.alive then (es, false)
    else
      let mv := p.speed * dt * 60
      if 0 ≤ mv ∧ dist2 p.pos t.pos ≤ mv * mv then
        let es1 := es.map fun e =>
          if e.id = p.target then takeDamage e p.damage else e
        let es2 :=
          if 0 < p.splashRadius then
            applySplash es1 t.pos p.splashRadius p.damage p.target
          else es1
        (es2, false)
      else (es, true)

/-- `ProjectileSystem.Update`: alive projectiles are resolved in order,
each seeing the enemy mutations of the ones before it. -/
def projectilesUpdate (dt : ℚ) (w : World) : World :=
  let r := w.projectiles.foldl
    (fun (acc : List Enemy × List Projectile) p =>
      if p.alive then
        let (es', alive') := resolveProjectile dt p acc.1
        (es', acc.2 ++ [{ p with alive := alive' }])
      else (acc.1, acc.2 ++ [p]))
    (w.enemies, [])
  { w with enemies := r.1, projectiles := r.2 }

/-! ## Reward system (`systems.RewardSystem`) -/

/-- The reward events `RewardSystem.Update` emits: one `(gold, score)`
pair per enemy that is alive (it scans `World.GetEnemies`, which
filters on the alive flag) with hp ≤ 0. -/
def rewardEvents (w : World) : List (ℤ × ℤ) :=
  (w.enemies.filter (fun e => e.alive ∧ e.hp ≤ 0)).map
    (fun e => (e.goldReward, e.scoreReward))

/-- `RewardSystem.Update`: emit the events and flip the alive flag of
each rewarded enemy. -/
def rewardUpdate (w : World) : World × List (ℤ × ℤ) :=
  ({ w with
      enemies := w.enemies.map
        (fun e => if e.alive ∧ e.hp ≤ 0 then { e with alive := false } else e) },
    rewardEvents w)

/-! ## Game state and lifecycle (`game.GameState`,
`systems.LifecycleSystem`) -/

/-- `game.GameState`. -/
structure GameState where
  wave : ℤ
  gold : ℤ
  lives : ℤ
  score : ℤ
  gameOver : Bool
deriving DecidableEq

/-- The reward callback registered in `NewGame`, folded over the emitted
events: gold and score increase. -/
def applyRewards (st : GameState) (evs : List (ℤ × ℤ)) : GameState :=
  evs.foldl (fun s ev => { s with gold := s.gold + ev.1, score := s.score + ev.2 }) st

/-- An enemy the lifecycle stage treats as having reached the end of the
path: still alive with `pathIndex ≥ pathLength - 1`. -/
def atEnd (pathLen : ℕ) (e : Enemy) : Bool :=
  e.alive ∧ (pathLen : ℤ) - 1 ≤ e.pathIndex

/-- `LifecycleSystem.Update`: mark every alive enemy at the end of the
path dead (one life-loss event each), then remove every dead entity.
Returns the cleaned world and the number of life-loss events. -/
def lifecycleUpdate (pathLen : ℕ) (w : World) : World × ℕ :=
  let marked := w.enemies.map
    (fun e => if atEnd pathLen e then { e with alive := false } else e)
  ((cleanupDead { w with enemies := marked }),
    (w.enemies.filter (atEnd pathLen)).length)

/-- One invocation of the life-loss callback registered in `NewGame`:
lives decrease by 1 and the game-over flag is set once lives ≤ 0. -/
def lifeLossStep (st : GameState) : GameState :=
  let l := st.lives - 1
  { st with lives := l, gameOver := if l ≤ 0 then true else st.gameOver }

/-- The life-loss callback applied once per event. -/
def applyLifeLoss (st : GameState) : ℕ → GameState
  | 0 => st
  | n + 1 => applyLifeLoss (lifeLossStep st) n

/-! ## Game instance (`game.Game`) -/

/-- `game.Game`: the per-instance mutable state the commands touch. -/
structure Game where
  cfg : GameCfg
  world : World
  state : GameState
  waveSys : WaveSys
  nextId : ℕ
  lastUpdate : ℚ
deriving DecidableEq

/-- The wave start position chosen in `NewGame`: the first path point,
or `(0, 250)` for an empty path. -/
def startPosOf (c : GameCfg) : Pos :=
  match c.path with
  | [] => ⟨0, 250⟩
  | p :: _ => p

/-- The helper `distanceToSegment` of `game.go`, translated verbatim:
despite its name it returns the *squared* distance from `p` to the
segment `a`–`b` (it never takes a square root). -/
def distanceToSegment (p a b : Pos) : ℚ :=
  let dx := b.x - a.x
  let dy := b.y - a.y
  if dx = 0 ∧ dy = 0 then
    (p.x - a.x) * (p.x - a.x) + (p.y - a.y) * (p.y - a.y)
  else
    let t0 := ((p.x - a.x) * dx + (p.y - a.y) * dy) / (dx * dx + dy * dy)
    let t1 := if t0 < 0 then 0 else if t0 > 1 then (1 : ℚ) else t0
    let nx := a.x + t1 * dx
    let ny := a.y + t1 * dy
    (p.x - nx) * (p.x - nx) + (p.y - ny) * (p.y - ny)

/-- `Game.isValidPlacement`, translated verbatim: tower cap, then the
path check — which compares the *squared* distance returned by
`distanceToSegment` against the linear `minDistanceFromPath` — then
tower spacing (squared against squared, consistently). -/
def isValidPlacement (g : Game) (p : Pos) : Bool :=
  if (towerCount g.world : ℤ) ≥ g.cfg.placement.maxTowers then false
  else if (g.cfg.path.zip g.cfg.path.tail).any
      (fun ab => distanceToSegment p ab.1 ab.2 < g.cfg.placement.minDistanceFromPath)
    then false
  else if (getTowers g.world).any
      (fun t => dist2 p t.pos <
        g.cfg.placement.minTowerSpacing * g.cfg.placement.minTowerSpacing)
    then false
  else true

/-- The `AddTower` error taxonomy (`ErrNotEnoughGold`,
`ErrInvalidPlacement`, and the unknown-archetype error from the config
lookup). -/
inductive GErr where
  | unknownTower
  | notEnoughGold
  | invalidPlacement
deriving DecidableEq

/-- `Game.AddTower`: archetype lookup, gold check, placement check, then
construct, insert and deduct.  Every failure path returns before any
mutation, so the game comes back unchanged. -/
def addTower (g : Game) (tt : String) (x y : ℚ) (now : ℚ) :
    Option GErr × Game :=
  match getTowerConfig g.cfg tt with
  | none => (some .unknownTower, g)
  | some tc =>
    if g.state.gold < tc.cost then (some .notEnoughGold, g)
    else if ¬ isValidPlacement g ⟨x, y⟩ then (some .invalidPlacement, g)
    else
      match createTower g.cfg tt ⟨x, y⟩ now g.nextId with
      | none => (some .unknownTower, g)
      | some (tw, nid') =>
        (none,
          { g with
            world := { g.world with towers := g.world.towers ++ [tw] }
            state := { g.state with gold := g.state.gold - tc.cost }
            nextId := nid' })

/-! ## Snapshots (`game.GameStateSnapshot` and the DTOs) -/

/-- `game.TowerDTO`. -/
structure TowerDTO where
  id : ℕ
  type : String
  pos : Pos
  range : ℚ
  damage : ℤ
  fireRate : ℚ
  splashRadius : ℚ
deriving DecidableEq

/-- `game.EnemyDTO`. -/
structure EnemyDTO where
  id : ℕ
  type : String
  pos : Pos
  hp : ℤ
  maxHp : ℤ
  speed : ℚ
  pathIndex : ℤ
deriving DecidableEq

/-- `game.ProjectileDTO`. -/
structure ProjectileDTO where
  id : ℕ
  type : String
  pos : Pos
  target : ℕ
  speed : ℚ
  damage : ℤ
  splashRadius : ℚ
deriving DecidableEq

/-- `game.GameStateSnapshot`.  (`Path`, `MapWidth`, `MapHeight` exist in
the Go struct but `GetState` leaves them zero and `LoadFromState`
ignores them.) -/
structure Snapshot where
  towers : List TowerDTO
  enemies : List EnemyDTO
  projectiles : List ProjectileDTO
  wave : ℤ
  gold : ℤ
  lives : ℤ
  score : ℤ
  gameOver : Bool
  path : List Pos
  mapWidth : ℤ
  mapHeight : ℤ
deriving DecidableEq

/-- `Game.convertTowers` on one tower. -/
def towerToDTO (t : Tower) : TowerDTO :=
  ⟨t.id, t.towerType, t.pos, t.range, t.damage, t.fireRate, t.splashRadius⟩

/-- `Game.convertEnemies` on one enemy. -/
def enemyToDTO (e : Enemy) : EnemyDTO :=
  ⟨e.id, e.enemyType, e.pos, e.hp, e.maxHp, e.speed, e.pathIndex⟩

/-- `Game.convertProjectiles` on one projectile. -/
def projToDTO (p : Projectile) : ProjectileDTO :=
  ⟨p.id, p.projectileType, p.pos, p.target, p.speed, p.damage, p.splashRadius⟩

/-- Tower reconstruction in `Game.LoadFromState`: stored id and stats,
alive, and the cooldown stamp set to the load time (`time.Now()`). -/
def towerFromDTO (now : ℚ) (d : TowerDTO) : Tower :=
  ⟨d.id, d.type, d.pos, true, d.range, d.damage, d.fireRate, d.splashRadius, now⟩

/-- Enemy reconstruction in `Game.LoadFromState`: stored id and stats,
alive; the reward fields are not part of the snapshot and come back as
the Go zero value. -/
def enemyFromDTO (d : EnemyDTO) : Enemy :=
  ⟨d.id, d.type, d.pos, true, d.hp, d.maxHp, d.speed, d.pathIndex, 0, 0⟩

/-- Projectile reconstruction in `Game.LoadFromState`. -/
def projFromDTO (d : ProjectileDTO) : Projectile :=
  ⟨d.id, d.type, d.pos, true, d.target, d.speed, d.damage, d.splashRadius⟩

/-- `Game.GetState`: alive entities converted to transfer form plus the
scalar state. -/
def getState (g : Game) : Snapshot :=
  { towers := (getTowers g.world).map towerToDTO
    enemies := (getEnemies g.world).map enemyToDTO
    projectiles := (getProjectiles g.world).map projToDTO
    wave := g.state.wave
    gold := g.state.gold
    lives := g.state.lives
    score := g.state.score
    gameOver := g.state.gameOver
    path := []
    mapWidth := 0
    mapHeight := 0 }

/-- `Game.SaveState` = `MarshalState`: the JSON encoding of `GetState`;
the byte round trip through `encoding/json` is faithful on this field
set, so bytes are modelled by the snapshot itself. -/
def saveState (g : Game) : Snapshot :=
  getState g

/-- `Game.LoadFromState` on a decoded snapshot: clear the world, restore
the scalars, rebuild every entity from its DTO with its stored id, and
resynchronise the wave counter. -/
def loadFromState (g : Game) (now : ℚ) (s : Snapshot) : Game :=
  { g with
    world :=
      { towers := s.towers.map (towerFromDTO now)
        enemies := s.enemies.map enemyFromDTO
        projectiles := s.projectiles.map projFromDTO }
    state :=
      { wave := s.wave, gold := s.gold, lives := s.lives, score := s.score,
        gameOver := s.gameOver }
    waveSys := { g.waveSys with currentWave := s.wave } }

/-- `Game.Reset`: clear the world, restore starting gold/lives, zero
wave/score, clear game-over, reset the wave system. -/
def resetG (g : Game) (now : ℚ) : Game :=
  { g with
    world := ⟨[], [], []⟩
    state :=
      { wave := 0, gold := g.cfg.startingGold, lives := g.cfg.startingLives,
        score := 0, gameOver := false }
    waveSys := { g.waveSys with
      currentWave := 0
      remainingInWave := 0
      lastWaveTime := now } }

/-- `Game.Update`, one tick: no-op when the game is over; otherwise
clamp `dt` to `[0, 0.05]`, mirror the wave counter, and run the
six-stage pipeline in order.  The movement stage (§4.4) only advances
enemy positions and path indices with real-valued geometry no verified
claim constrains, so the tick is parametric in it (`mv` receives `dt`,
the path and the world, like `MovementSystem.Update`). -/
def updateG (mv : ℚ → List Pos → World → World) (g : Game) (now : ℚ) : Game :=
  if g.state.gameOver then g
  else
    let dt0 := now - g.lastUpdate
    let dt := if dt0 < 0 then 0 else if dt0 > 1 / 20 then 1 / 20 else dt0
    let st0 := { g.state with wave := g.waveSys.currentWave }
    let (ws1, w1, nid1) :=
      waveUpdate g.cfg (startPosOf g.cfg) now g.waveSys g.world g.nextId
    let w2 := mv dt g.cfg.path w1
    let (w3, nid2) := combatUpdate g.cfg now w2 nid1
    let w4 := projectilesUpdate dt w3
    let (w5, evs) := rewardUpdate w4
    let st1 := applyRewards st0 evs
    let (w6, n) := lifecycleUpdate g.cfg.path.length w5
    let st2 := applyLifeLoss st1 n
    { g with
      world := w6
      state := st2
      waveSys := ws1
      nextId := nid2
      lastUpdate := now }

/-! ## Concrete fixtures

A small balance configuration in the format of `balance.yaml` (tower
table as in the repository README: basic 50g/dmg 10/range 100/rate 1,
sniper 100g/dmg 50/range 200/rate 0.5, splash 75g/dmg 5/range 80/rate
2/radius 30), with an hp scale of 1 so enemy hp is wave-independent,
an early-wave composition of two basic enemies, and a straight path
from (0,0) to (100,0). -/

/-- Sample configuration used by the concrete evaluations. -/
def cfgA : GameCfg :=
  { startingGold := 100
    startingLives := 20
    towers :=
      [("basic", ⟨50, 100, 10, 1, 0⟩),
        ("sniper", ⟨100, 200, 50, 1 / 2, 0⟩),
        ("splash", ⟨75, 80, 5, 2, 30⟩)]
    enemies :=
      [("basic", ⟨50, 1, 10, 10⟩), ("fast", ⟨30, 2, 15, 15⟩)]
    projectiles :=
      [("basic", ⟨5⟩), ("sniper", ⟨8⟩), ("splash", ⟨4⟩)]
    waves :=
      { hpScalePerWave := 1
        early := ⟨2, 0, 0, 0⟩
        mid := ⟨7, 3, 0, 0⟩
        late := ⟨5, 3, 2, 0⟩
        bossW := ⟨5, 0, 2, 1⟩ }
    path := [⟨0, 0⟩, ⟨100, 0⟩]
    placement := ⟨40, 50, 20⟩ }

/-- A freshly constructed wave system (counters zero, 10 s interval). -/
def wsA : WaveSys :=
  ⟨0, 0, 0, 0, 10, []⟩

/-- A fresh game over `cfgA` (as built by `NewGame`). -/
def gameA : Game :=
  { cfg := cfgA
    world := ⟨[], [], []⟩
    state := { wave := 0, gold := 100, lives := 20, score := 0, gameOver := false }
    waveSys := wsA
    nextId := 0
    lastUpdate := 0 }

/-- An enemy with 10 hp sitting at the origin. -/
def enemyA : Enemy :=
  ⟨1, "basic", ⟨0, 0⟩, true, 10, 10, 1, 0, 10, 10⟩

/-- A projectile at the origin targeting `enemyA` with damage 20. -/
def projA : Projectile :=
  ⟨2, "basic", ⟨0, 0⟩, true, 1, 1, 20, 0⟩

/-- A world holding just `enemyA` and `projA`. -/
def worldA : World :=
  ⟨[], [enemyA], [projA]⟩

/-- Wave start for `cfgA`: the new-wave step at time 0 on an empty
world. -/
def waveS1 : WaveSys × World × ℕ :=
  spawnWave cfgA ⟨0, 0⟩ 0 wsA ⟨[], [], []⟩ 0

/-- First drip spawn after `waveS1`. -/
def waveS2 : WaveSys × World × ℕ :=
  spawnNextEnemy cfgA ⟨0, 0⟩ waveS1.1 waveS1.2.1 waveS1.2.2

/-- Second drip spawn after `waveS2`. -/
def waveS3 : WaveSys × World × ℕ :=
  spawnNextEnemy cfgA ⟨0, 0⟩ waveS2.1 waveS2.2.1 waveS2.2.2

/-! ## C1 — reward stage never fires for damage kills -/

/-- C1.  The claim says an enemy whose hp first drops ≤ 0 via
`TakeDamage` in the projectile stage receives the reward callback
exactly once in the reward stage of the same tick.  The code refutes
it: `TakeDamage` flips the alive flag the moment hp reaches 0, and
`RewardSystem.Update` scans `World.GetEnemies()`, which filters dead
enemies out, so the reward callback fires *zero* times.  Concretely:
`enemyA` (10 hp) is hit by `projA` (damage 20, in reach at dt = 1/20);
after the projectile stage the enemy has hp 0 and alive = false, and
the reward stage of the same tick emits no events at all. -/
theorem c1_reward_never_granted_for_damage_kill :
    getEnemy (projectilesUpdate (1 / 20) worldA) 1 =
      some { enemyA with hp := 0, alive := false } ∧
    rewardEvents (projectilesUpdate (1 / 20) worldA) = [] ∧
    (rewardUpdate (projectilesUpdate (1 / 20) worldA)).2 = [] ∧
    getProjectiles (projectilesUpdate (1 / 20) worldA) = [] := by
  norm_num [projectilesUpdate, resolveProjectile, getEnemy, rewardEvents,
    rewardUpdate, getProjectiles, worldA, enemyA, projA, dist2, takeDamage,
    applySplash, splashAmount]

/-! ## C2 — wave admits 2n−1 enemies, drip spawns are not batch members -/

/-- C2.  The claim says a wave with batch size n admits exactly n
enemies, all from the batch built at wave start.  The code refutes it:
`spawnWave` sets `remainingInWave` to `len`, decrements it for the
immediately admitted first batch member, then *increments* it once per
further batch member (the loop whose comment says it stores them), so
n = 2 leaves `remainingInWave = 2`; and `spawnNextEnemy` constructs a
fresh enemy by weighted random draw instead of taking a batch member.
With `cfgA` (early composition = two basic enemies) the batch for wave
1 has ids [0, 1], yet the wave admits three enemies with ids
[0, 2, 3] — ids 2 and 3 are freshly created, and id 1 is never
admitted. -/
theorem c2_wave_spawn_count_and_provenance_bug :
    (createEnemiesForWave cfgA 1 ⟨0, 0⟩ 0).map (fun r => r.1.map (fun e => e.id)) =
      some [0, 1] ∧
    waveS1.1.remainingInWave = 2 ∧
    (waveS1.2.1.enemies.map fun e => e.id) = [0] ∧
    waveS3.1.remainingInWave = 0 ∧
    (waveS3.2.1.enemies.map fun e => e.id) = [0, 2, 3] := by
  norm_num [waveS1, waveS2, waveS3, spawnWave, spawnNextEnemy, createEnemiesForWave,
    createMany, createEnemy, getEnemyConfig, getWaveComposition, cfgA, wsA,
    scaleEnemyHP, selectEnemyType, takeRand, nextSpawnDelay, addEnemy, truncQ]

/-! ## C3 — the path-distance check compares a squared distance with a
linear threshold -/

/-- C3.  The claim says any position whose straight-line distance to
every path segment is below `minDistanceFromPath` is rejected with
`InvalidPlacement`, leaving gold and the tower count unchanged.  The
code refutes it: `distanceToSegment` returns the *squared* distance
(it never takes a square root) and `isValidPlacement` compares that
square against the linear threshold.  Over `cfgA`
(`minDistanceFromPath = 40`, path (0,0)–(100,0)), the point (50, 10)
has straight-line distance 10 < 40 to the only segment, yet its
squared distance 100 is not below 40, so `AddTower` succeeds: it
returns no error, inserts a tower and deducts the 50 gold. -/
theorem c3_placement_accepts_point_near_path :
    distanceToSegment ⟨50, 10⟩ ⟨0, 0⟩ ⟨100, 0⟩ = 10 * 10 ∧
    (10 : ℚ) < cfgA.placement.minDistanceFromPath ∧
    (addTower gameA "basic" 50 10 0).1 = none ∧
    (addTower gameA "basic" 50 10 0).2.state.gold = 50 ∧
    towerCount (addTower gameA "basic" 50 10 0).2.world = 1 := by
  norm_num [addTower, gameA, cfgA, wsA, getTowerConfig, isValidPlacement,
    distanceToSegment, towerCount, getTowers, dist2, createTower]

/-! ## C4 — save/load round trip -/

/-- Towers restored from DTOs are all alive, so the filter-and-convert
of `GetState` inverts the restore of `LoadFromState`. -/
lemma roundtrip_towers (now : ℚ) (l : List TowerDTO) :
    ((l.map (towerFromDTO now)).filter (fun t => t.alive)).map towerToDTO = l := by
  induction l with
  | nil => rfl
  | cons d rest ih => simp [List.filter_cons, towerFromDTO, towerToDTO, ih]

/-- Enemy analogue of `roundtrip_towers`. -/
lemma roundtrip_enemies (l : List EnemyDTO) :
    ((l.map enemyFromDTO).filter (fun e => e.alive)).map enemyToDTO = l := by
  induction l with
  | nil => rfl
  | cons d rest ih => simp [List.filter_cons, enemyFromDTO, enemyToDTO, ih]

/-- Projectile analogue of `roundtrip_towers`. -/
lemma roundtrip_projectiles (l : List ProjectileDTO) :
    ((l.map projFromDTO).filter (fun p => p.alive)).map projToDTO = l := by
  induction l with
  | nil => rfl
  | cons d rest ih => simp [List.filter_cons, projFromDTO, projToDTO, ih]

/-- C4.  `LoadFromState` applied to the bytes `SaveState` produced
(decoding is faithful on this field set, so bytes are modelled by the
snapshot) yields a game whose next `GetState` snapshot is identical to
the snapshot at save time: same entity ids (stored, not regenerated),
positions, per-entity stats, and the same wave/gold/lives/score/
game-over scalars. -/
theorem c4_save_load_roundtrip (g : Game) (now : ℚ) :
    getState (loadFromState g now (saveState g)) = saveState g := by
  simp only [saveState, getState, loadFromState, getTowers, getEnemies,
    getProjectiles]
  rw [roundtrip_towers, roundtrip_enemies, roundtrip_projectiles]

/-! ## C9 — projectiles with dangling targets are retired -/

/-- C9.  An alive projectile whose target id does not resolve to an
enemy, or resolves to a dead one, is marked dead by its resolution
step with the enemy list untouched (no damage applied). -/
theorem c9_dangling_target_retires_projectile (dt : ℚ) (p : Projectile)
    (es : List Enemy) (_halive : p.alive = true)
    (h : es.find? (fun e => e.id = p.target) = none ∨
      ∃ t, es.find? (fun e => e.id = p.target) = some t ∧ t.alive = false) :
    resolveProjectile dt p es = (es, false) := by
  rcases h with h | ⟨t, ht, hdead⟩
  · simp [resolveProjectile, h]
  · simp [resolveProjectile, ht, hdead]

/-- A stray projectile aimed at the absent id 99. -/
def projB : Projectile :=
  ⟨5, "basic", ⟨0, 0⟩, true, 99, 1, 20, 0⟩

/-- Witness for C9: `projB` in a world with no enemies is retired
without damage. -/
theorem c9_dangling_target_retires_projectile_witness :
    projB.alive = true ∧ resolveProjectile (1 / 20) projB [] = ([], false) :=
  ⟨rfl, c9_dangling_target_retires_projectile (1 / 20) projB [] rfl (Or.inl rfl)⟩

/-! ## C10 — restored towers restart their cooldown, fresh towers fire
immediately -/

/-- C10.  A tower restored by `LoadFromState` gets its last-shot stamp
set to the load time, so it cannot fire while less than `1/fireRate`
has elapsed since the load; a tower built by `CreateTower` gets a
stamp one hour in the past and (for any configured fire rate with
`1/fireRate ≤ 3600`) can fire immediately. -/
theorem c10_loaded_tower_cooldown (loadT now : ℚ) (d : TowerDTO)
    (c : GameCfg) (tt : String) (p : Pos) (nid nid' : ℕ) (tw : Tower)
    (_hfr : 0 < d.fireRate)
    (hcreate : createTower c tt p loadT nid = some (tw, nid'))
    (hfr2 : 1 / tw.fireRate ≤ 3600) :
    (towerFromDTO loadT d).lastShot = loadT ∧
    (now - loadT < 1 / d.fireRate → canShoot now (towerFromDTO loadT d) = false) ∧
    tw.lastShot = loadT - 3600 ∧
    canShoot loadT tw = true := by
  rcases hlook : getTowerConfig c tt with - | cfg
  · rw [createTower, hlook] at hcreate
    exact absurd hcreate (by simp)
  · rw [createTower, hlook] at hcreate
    have h2 : (⟨nid, tt, p, true, cfg.range, cfg.damage, cfg.fireRate,
        cfg.splashRadius, loadT - 3600⟩ : Tower) = tw ∧ nid + 1 = nid' := by
      simpa [Prod.ext_iff] using hcreate
    obtain ⟨htw, -⟩ := h2
    subst htw
    refine ⟨rfl, ?_, rfl, ?_⟩
    · intro hlt
      simp only [canShoot, towerFromDTO, decide_eq_false_iff_not]
      exact not_le.mpr hlt
    · have h3 : loadT - (loadT - 3600) = (3600 : ℚ) := by ring
      simp only [canShoot, h3, decide_eq_true_eq]
      exact hfr2

/-- A tower DTO as stored in a snapshot (basic tower stats). -/
def dtoB : TowerDTO :=
  ⟨7, "basic", ⟨0, 0⟩, 100, 10, 1, 0⟩

/-- The tower `CreateTower` builds from `cfgA`'s basic archetype at
time 100 with id 0. -/
def twB : Tower :=
  ⟨0, "basic", ⟨0, 0⟩, true, 100, 10, 1, 0, 100 - 3600⟩

/-- Witness for C10: a tower restored at time 100 cannot shoot at time
100.5 (fire rate 1), while the freshly created `twB` can shoot the
moment it is created. -/
theorem c10_loaded_tower_cooldown_witness :
    (towerFromDTO 100 dtoB).lastShot = 100 ∧
    canShoot (201 / 2) (towerFromDTO 100 dtoB) = false ∧
    twB.lastShot = 100 - 3600 ∧
    canShoot 100 twB = true := by
  have h := c10_loaded_tower_cooldown 100 (201 / 2) dtoB cfgA "basic" ⟨0, 0⟩ 0 1
    twB (by norm_num [dtoB]) rfl (by norm_num [twB])
  exact ⟨h.1, h.2.1 (by norm_num [dtoB]), h.2.2.1, h.2.2.2⟩

/-! ## C5 — `AddTower` mutates nothing on failure, and exactly one
tower plus the gold deduction on success -/

/-- Unknown archetype: `AddTower` fails without mutation. -/
lemma addTower_unknown (g : Game) (tt : String) (x y now : ℚ)
    (h : getTowerConfig g.cfg tt = none) :
    addTower g tt x y now = (some .unknownTower, g) := by
  simp [addTower, h]

/-- Insufficient gold: `AddTower` fails without mutation. -/
lemma addTower_poor (g : Game) (tt : String) (x y now : ℚ) (tc : TowerCfg)
    (h : getTowerConfig g.cfg tt = some tc) (h2 : g.state.gold < tc.cost) :
    addTower g tt x y now = (some .notEnoughGold, g) := by
  simp [addTower, h, h2]

/-- Invalid placement: `AddTower` fails without mutation. -/
lemma addTower_invalid (g : Game) (tt : String) (x y now : ℚ) (tc : TowerCfg)
    (h : getTowerConfig g.cfg tt = some tc) (h2 : ¬ g.state.gold < tc.cost)
    (h3 : isValidPlacement g ⟨x, y⟩ = false) :
    addTower g tt x y now = (some .invalidPlacement, g) := by
  simp [addTower, h, h2, h3]

/-- Success: `AddTower` appends exactly the created tower and deducts
exactly the archetype's cost, touching nothing else. -/
lemma addTower_success (g : Game) (tt : String) (x y now : ℚ) (tc : TowerCfg)
    (h : getTowerConfig g.cfg tt = some tc) (h2 : ¬ g.state.gold < tc.cost)
    (h3 : isValidPlacement g ⟨x, y⟩ = true) :
    addTower g tt x y now =
      (none,
        { g with
          world := { g.world with
            towers := g.world.towers ++
              [⟨g.nextId, tt, ⟨x, y⟩, true, tc.range, tc.damage, tc.fireRate,
                tc.splashRadius, now - 3600⟩] }
          state := { g.state with gold := g.state.gold - tc.cost }
          nextId := g.nextId + 1 }) := by
  simp [addTower, createTower, h, h2, h3]

/-- C5.  Every failing `AddTower` call (unknown archetype, insufficient
funds, invalid placement) returns the game exactly as it was; every
successful call appends exactly one tower (the one `CreateTower`
built), deducts exactly the archetype's cost from gold, and leaves
enemies, projectiles, the other scalar fields, the wave system and the
configuration untouched. -/
theorem c5_addTower_characterization (g : Game) (tt : String) (x y now : ℚ) :
    (∀ e g', addTower g tt x y now = (some e, g') → g' = g) ∧
    (∀ g', addTower g tt x y now = (none, g') →
      ∃ tc tw, getTowerConfig g.cfg tt = some tc ∧
        createTower g.cfg tt ⟨x, y⟩ now g.nextId = some (tw, g.nextId + 1) ∧
        g'.world.towers = g.world.towers ++ [tw] ∧
        g'.world.enemies = g.world.enemies ∧
        g'.world.projectiles = g.world.projectiles ∧
        g'.state.gold = g.state.gold - tc.cost ∧
        tc.cost ≤ g.state.gold ∧
        isValidPlacement g ⟨x, y⟩ = true ∧
        g'.state.lives = g.state.lives ∧
        g'.state.score = g.state.score ∧
        g'.state.wave = g.state.wave ∧
        g'.state.gameOver = g.state.gameOver ∧
        g'.waveSys = g.waveSys ∧
        g'.lastUpdate = g.lastUpdate ∧
        g'.cfg = g.cfg) := by
  rcases hlook : getTowerConfig g.cfg tt with - | tc
  · refine ⟨?_, ?_⟩
    · intro e g' h
      rw [addTower_unknown g tt x y now hlook] at h
      exact (Prod.mk.injEq _ _ _ _ ▸ h).2.symm
    · intro g' h
      rw [addTower_unknown g tt x y now hlook] at h
      exact absurd (Prod.mk.injEq _ _ _ _ ▸ h).1 (by simp)
  · by_cases h2 : g.state.gold < tc.cost
    · refine ⟨?_, ?_⟩
      · intro e g' h
        rw [addTower_poor g tt x y now tc hlook h2] at h
        exact (Prod.mk.injEq _ _ _ _ ▸ h).2.symm
      · intro g' h
        rw [addTower_poor g tt x y now tc hlook h2] at h
        exact absurd (Prod.mk.injEq _ _ _ _ ▸ h).1 (by simp)
    · rcases hval : isValidPlacement g ⟨x, y⟩ with - | -
      · refine ⟨?_, ?_⟩
        · intro e g' h
          rw [addTower_invalid g tt x y now tc hlook h2 hval] at h
          exact (Prod.mk.injEq _ _ _ _ ▸ h).2.symm
        · intro g' h
          rw [addTower_invalid g tt x y now tc hlook h2 hval] at h
          exact absurd (Prod.mk.injEq _ _ _ _ ▸ h).1 (by simp)
      · refine ⟨?_, ?_⟩
        · intro e g' h
          rw [addTower_success g tt x y now tc hlook h2 hval] at h
          exact absurd (Prod.mk.injEq _ _ _ _ ▸ h).1 (by simp)
        · intro g' h
          rw [addTower_success g tt x y now tc hlook h2 hval] at h
          have hg' := (Prod.mk.injEq _ _ _ _ ▸ h).2
          subst hg'
          exact ⟨tc,
            ⟨g.nextId, tt, ⟨x, y⟩, true, tc.range, tc.damage, tc.fireRate,
              tc.splashRadius, now - 3600⟩,
            rfl, by simp [createTower, hlook], rfl, rfl, rfl, rfl,
            not_lt.mp h2, rfl, rfl, rfl, rfl, rfl, rfl, rfl, rfl⟩

/-- The game `AddTower` produces from `gameA` when placing a basic
tower at the valid spot (50, 60) at time 0. -/
def gameASuccess : Game :=
  { cfg := cfgA
    world := ⟨[⟨0, "basic", ⟨50, 60⟩, true, 100, 10, 1, 0, -3600⟩], [], []⟩
    state := { wave := 0, gold := 50, lives := 20, score := 0, gameOver := false }
    waveSys := wsA
    nextId := 1
    lastUpdate := 0 }

/-- Witness for C5: the successful placement at (50, 60) on `gameA`
yields exactly one new tower and the 50-gold deduction. -/
theorem c5_addTower_characterization_witness :
    addTower gameA "basic" 50 60 0 = (none, gameASuccess) ∧
    ∃ tc tw, getTowerConfig gameA.cfg "basic" = some tc ∧
      createTower gameA.cfg "basic" ⟨50, 60⟩ 0 gameA.nextId =
        some (tw, gameA.nextId + 1) ∧
      gameASuccess.world.towers = gameA.world.towers ++ [tw] ∧
      gameASuccess.world.enemies = gameA.world.enemies ∧
      gameASuccess.world.projectiles = gameA.world.projectiles ∧
      gameASuccess.state.gold = gameA.state.gold - tc.cost ∧
      tc.cost ≤ gameA.state.gold ∧
      isValidPlacement gameA ⟨50, 60⟩ = true ∧
      gameASuccess.state.lives = gameA.state.lives ∧
      gameASuccess.state.score = gameA.state.score ∧
      gameASuccess.state.wave = gameA.state.wave ∧
      gameASuccess.state.gameOver = gameA.state.gameOver ∧
      gameASuccess.waveSys = gameA.waveSys ∧
      gameASuccess.lastUpdate = gameA.lastUpdate ∧
      gameASuccess.cfg = gameA.cfg := by
  have heq : addTower gameA "basic" 50 60 0 = (none, gameASuccess) := by
    norm_num [addTower, gameA, gameASuccess, cfgA, wsA, getTowerConfig,
      isValidPlacement, distanceToSegment, towerCount, getTowers, dist2,
      createTower]
  exact ⟨heq,
    (c5_addTower_characterization gameA "basic" 50 60 0).2 gameASuccess heq⟩

/-! ## C6 — life loss exactly once per end-of-path enemy, game over
permanent until reset -/

/-- The life-loss callback decrements lives by exactly one per event. -/
lemma applyLifeLoss_lives (st : GameState) (n : ℕ) :
    (applyLifeLoss st n).lives = st.lives - n := by
  induction n generalizing st with
  | zero => simp [applyLifeLoss]
  | succ k ih =>
    rw [applyLifeLoss, ih]
    simp [lifeLossStep]
    ring

/-- The game-over flag after the life-loss callback: set exactly when
it already was, or at least one life was lost and lives ended ≤ 0. -/
lemma applyLifeLoss_gameOver (st : GameState) (n : ℕ) :
    (applyLifeLoss st n).gameOver = true ↔
      st.gameOver = true ∨ (0 < n ∧ st.lives - (n : ℤ) ≤ 0) := by
  induction n generalizing st with
  | zero => simp [applyLifeLoss]
  | succ k ih =>
    rw [applyLifeLoss, ih]
    by_cases h : st.lives - 1 ≤ 0 <;>
      cases hgo : st.gameOver <;>
        simp [lifeLossStep, h, hgo] <;> omega

/-- After the lifecycle stage every surviving enemy is alive and not at
the end of the path. -/
lemma lifecycle_post (pathLen : ℕ) (w : World) :
    ∀ e ∈ (lifecycleUpdate pathLen w).1.enemies,
      e.alive = true ∧ atEnd pathLen e = false := by
  intro e he
  simp only [lifecycleUpdate, cleanupDead, List.mem_filter, List.mem_map] at he
  obtain ⟨⟨e0, he0, heq⟩, halive⟩ := he
  by_cases h : atEnd pathLen e0
  · rw [if_pos h] at heq
    rw [← heq] at halive
    simp at halive
  · rw [if_neg h] at heq
    subst heq
    exact ⟨halive, by simpa using h⟩

/-- Everything the lifecycle stage leaves behind is alive, so running
it again changes nothing and loses no further life: an end-of-path
enemy is counted exactly once across ticks. -/
lemma lifecycle_idem (pathLen : ℕ) (w : World) :
    lifecycleUpdate pathLen (lifecycleUpdate pathLen w).1 =
      ((lifecycleUpdate pathLen w).1, 0) := by
  have hpost := lifecycle_post pathLen w
  have henemies : (lifecycleUpdate pathLen w).1.enemies.filter (atEnd pathLen) = [] := by
    rw [List.filter_eq_nil_iff]
    intro e he
    simp [(hpost e he).2]
  have hmap : (lifecycleUpdate pathLen w).1.enemies.map
      (fun e => if atEnd pathLen e then { e with alive := false } else e) =
      (lifecycleUpdate pathLen w).1.enemies := by
    rw [List.map_congr_left (fun e he => if_neg (by simp [(hpost e he).2]))]
    exact List.map_id _
  have hfe : (lifecycleUpdate pathLen w).1.enemies.filter (fun e => e.alive) =
      (lifecycleUpdate pathLen w).1.enemies :=
    List.filter_eq_self.mpr (fun e he => (hpost e he).1)
  have hft : (lifecycleUpdate pathLen w).1.towers.filter (fun t => t.alive) =
      (lifecycleUpdate pathLen w).1.towers := by
    simp only [lifecycleUpdate, cleanupDead]
    exact List.filter_eq_self.mpr (fun t ht => List.of_mem_filter ht)
  have hfp : (lifecycleUpdate pathLen w).1.projectiles.filter (fun p => p.alive) =
      (lifecycleUpdate pathLen w).1.projectiles := by
    simp only [lifecycleUpdate, cleanupDead]
    exact List.filter_eq_self.mpr (fun p hp => List.of_mem_filter hp)
  simp only [lifecycleUpdate, cleanupDead] at hmap henemies hfe hft hfp ⊢
  rw [hmap, henemies, hfe, hft, hfp]
  rfl

/-- C6.  On every tick the lifecycle stage marks each still-alive enemy
whose path index reached the final waypoint dead and removes it,
losing exactly one life per such enemy (the emitted count equals the
number of such enemies, and the callback subtracts exactly that many
lives); a second pass finds nothing, so no enemy is ever
double-counted.  The game-over flag becomes true exactly when
accumulated life loss brings lives to zero or below (or it already
was true); once the flag is true a tick is a complete no-op — so the
flag stays true under every sequence of subsequent ticks — and only an
explicit reset clears it. -/
theorem c6_lifecycle_and_gameover (pathLen : ℕ) (w : World) (st : GameState)
    (n : ℕ) (mv : ℚ → List Pos → World → World) (g : Game) (now : ℚ)
    (ts : List ℚ) :
    (lifecycleUpdate pathLen w).2 = (w.enemies.filter (atEnd pathLen)).length ∧
    (applyLifeLoss st (lifecycleUpdate pathLen w).2).lives =
      st.lives - ((w.enemies.filter (atEnd pathLen)).length : ℤ) ∧
    (∀ e ∈ (lifecycleUpdate pathLen w).1.enemies,
      e.alive = true ∧ atEnd pathLen e = false) ∧
    lifecycleUpdate pathLen (lifecycleUpdate pathLen w).1 =
      ((lifecycleUpdate pathLen w).1, 0) ∧
    ((applyLifeLoss st n).gameOver = true ↔
      st.gameOver = true ∨ (0 < n ∧ st.lives - (n : ℤ) ≤ 0)) ∧
    (g.state.gameOver = true → updateG mv g now = g) ∧
    (g.state.gameOver = true → ts.foldl (updateG mv) g = g) ∧
    (resetG g now).state.gameOver = false := by
  have hstep : g.state.gameOver = true → ∀ t, updateG mv g t = g := by
    intro hgo t
    simp [updateG, hgo]
  refine ⟨rfl, applyLifeLoss_lives st _, lifecycle_post pathLen w,
    lifecycle_idem pathLen w, applyLifeLoss_gameOver st n,
    fun hgo => hstep hgo now, fun hgo => ?_, rfl⟩
  induction ts with
  | nil => rfl
  | cons t rest ih => rw [List.foldl_cons, hstep hgo t, ih]

/-- The identity movement stage used to instantiate the parametric
tick in the witness. -/
def mvId : ℚ → List Pos → World → World := fun _ _ w => w

/-- A finished game (`gameA` with the game-over flag set). -/
def gameOverA : Game :=
  { gameA with state := { gameA.state with gameOver := true } }

/-- A world holding one alive enemy whose path index reached the final
waypoint of a 2-point path. -/
def worldEnd : World :=
  ⟨[], [⟨3, "basic", ⟨100, 0⟩, true, 50, 50, 1, 1, 10, 10⟩], []⟩

/-- A game state with a single remaining life. -/
def stOne : GameState :=
  ⟨0, 0, 1, 0, false⟩

/-- Witness for C6 at a concrete end-of-path enemy and a concrete
finished game: one life lost, nothing left to double-count, and two
further ticks leave the finished game untouched while reset clears the
flag. -/
theorem c6_lifecycle_and_gameover_witness :
    (lifecycleUpdate 2 worldEnd).2 =
      (worldEnd.enemies.filter (atEnd 2)).length ∧
    (applyLifeLoss stOne (lifecycleUpdate 2 worldEnd).2).lives =
      stOne.lives - ((worldEnd.enemies.filter (atEnd 2)).length : ℤ) ∧
    lifecycleUpdate 2 (lifecycleUpdate 2 worldEnd).1 =
      ((lifecycleUpdate 2 worldEnd).1, 0) ∧
    ((applyLifeLoss stOne 1).gameOver = true ↔
      stOne.gameOver = true ∨ (0 < 1 ∧ stOne.lives - ((1 : ℕ) : ℤ) ≤ 0)) ∧
    updateG mvId gameOverA 5 = gameOverA ∧
    [1, 2].foldl (updateG mvId) gameOverA = gameOverA ∧
    (resetG gameOverA 0).state.gameOver = false := by
  have h := c6_lifecycle_and_gameover 2 worldEnd stOne 1 mvId gameOverA 5 [1, 2]
  exact ⟨h.1, h.2.1, h.2.2.2.1, h.2.2.2.2.1, h.2.2.2.2.2.1 rfl,
    h.2.2.2.2.2.2.1 rfl, h.2.2.2.2.2.2.2⟩

/-! ## C7 — splash damage -/

/-- `TakeDamage` never changes an enemy's identifier. -/
lemma takeDamage_id (e : Enemy) (d : ℤ) : (takeDamage e d).id = e.id := by
  unfold takeDamage
  dsimp only
  split <;> rfl

/-- C7.  A projectile with splash radius 30 and damage 20 that reaches
its primary target deals exactly 20 damage to the primary target and
exactly `max(20/2, 1) = 10` splash damage to every *other* alive enemy
within 30 units of the target's position, and nothing to enemies
farther than 30 units, to dead enemies, or to the primary target
itself; the projectile dies on impact. -/
theorem c7_splash_damage (dt : ℚ) (p : Projectile) (es : List Enemy) (t : Enemy)
    (hfind : es.find? (fun e => e.id = p.target) = some t)
    (halive : t.alive = true)
    (hmv : 0 ≤ p.speed * dt * 60)
    (hreach : dist2 p.pos t.pos ≤ (p.speed * dt * 60) * (p.speed * dt * 60))
    (hsr : p.splashRadius = 30) (hdm : p.damage = 20) :
    splashAmount 20 = 10 ∧
    resolveProjectile dt p es =
      (es.map (fun e =>
        if e.id = p.target then takeDamage e 20
        else if e.alive ∧ dist2 e.pos t.pos ≤ 900 then takeDamage e 10
        else e), false) := by
  refine ⟨by decide, ?_⟩
  simp only [resolveProjectile, hfind]
  rw [if_neg (by simp [halive])]
  rw [if_pos ⟨hmv, hreach⟩, if_pos (by rw [hsr]; norm_num)]
  unfold applySplash
  rw [List.map_map]
  refine congrArg (fun l => (l, false)) (List.map_congr_left ?_)
  intro e he
  simp only [Function.comp_apply]
  rw [hdm, hsr]
  have h900 : (30 : ℚ) * 30 = 900 := by norm_num
  have hsa : splashAmount 20 = 10 := by decide
  rw [h900, hsa]
  by_cases hid : e.id = p.target
  · have hid2 : (takeDamage e 20).id = p.target := by
      rw [takeDamage_id, hid]
    rw [if_pos hid, if_pos hid]
    exact if_neg (fun hcon => hcon.2.1 hid2)
  · rw [if_neg hid, if_neg hid]
    by_cases hsp : e.alive = true ∧ dist2 e.pos t.pos ≤ 900
    · rw [if_pos ⟨hsp.1, hid, hsp.2⟩, if_pos hsp]
    · rw [if_neg (fun hcon => hsp ⟨hcon.1, hcon.2.2⟩), if_neg hsp]

/-- Enemies for the C7 witness: the primary target at the origin, a
second alive enemy 5 units away (within the 30-unit radius), one 100
units away, and a dead one 1 unit away. -/
def esSplash : List Enemy :=
  [⟨1, "basic", ⟨0, 0⟩, true, 50, 50, 1, 0, 10, 10⟩,
    ⟨2, "basic", ⟨3, 4⟩, true, 50, 50, 1, 0, 10, 10⟩,
    ⟨3, "basic", ⟨100, 0⟩, true, 50, 50, 1, 0, 10, 10⟩,
    ⟨4, "basic", ⟨1, 0⟩, false, 50, 50, 1, 0, 10, 10⟩]

/-- The splash projectile for the C7 witness: damage 20, radius 30,
sitting on its target. -/
def projSplash : Projectile :=
  ⟨9, "splash", ⟨0, 0⟩, true, 1, 4, 20, 30⟩

/-- Witness for C7 at the concrete world `esSplash`. -/
theorem c7_splash_damage_witness :
    splashAmount 20 = 10 ∧
    resolveProjectile (1 / 20) projSplash esSplash =
      (esSplash.map (fun e =>
        if e.id = projSplash.target then takeDamage e 20
        else if e.alive ∧ dist2 e.pos (⟨0, 0⟩ : Pos) ≤ 900 then takeDamage e 10
        else e), false) :=
  c7_splash_damage (1 / 20) projSplash esSplash
    ⟨1, "basic", ⟨0, 0⟩, true, 50, 50, 1, 0, 10, 10⟩
    rfl rfl (by norm_num [projSplash])
    (by norm_num [projSplash, esSplash, dist2]) rfl rfl

/-! ## C8 — combat targeting and firing -/

/-- Full characterization of the target-selection fold: either nothing
beats the accumulator (which is returned unchanged), or the result is
the first alive enemy attaining the minimal distance, strictly better
than the accumulator, weakly better than every alive list member, and
strictly better than every alive member before it. -/
lemma selectTarget_spec (tp : Pos) (es : List Enemy) (acc : Option Enemy × ℚ) :
    (selectTarget tp es acc = acc ∧
      ∀ e' ∈ es, e'.alive = true → acc.2 ≤ dist2 e'.pos tp) ∨
    (∃ e l1 l2, (selectTarget tp es acc).1 = some e ∧
      (selectTarget tp es acc).2 = dist2 e.pos tp ∧
      es = l1 ++ e :: l2 ∧ e.alive = true ∧
      dist2 e.pos tp < acc.2 ∧
      (∀ e' ∈ es, e'.alive = true → dist2 e.pos tp ≤ dist2 e'.pos tp) ∧
      (∀ e' ∈ l1, e'.alive = true → dist2 e.pos tp < dist2 e'.pos tp)) := by
  induction es generalizing acc with
  | nil => exact Or.inl ⟨rfl, by simp⟩
  | cons x rest ih =>
    by_cases hc : x.alive = true ∧ dist2 x.pos tp < acc.2
    · have hstep : selectTarget tp (x :: rest) acc =
          selectTarget tp rest (some x, dist2 x.pos tp) := by
        rw [selectTarget, if_pos hc]
      rcases ih (some x, dist2 x.pos tp) with ⟨heq, hall⟩ |
        ⟨e, l1, l2, h1, h2, h3, h4, h5, h6, h7⟩
      · refine Or.inr ⟨x, [], rest, ?_, ?_, rfl, hc.1, hc.2, ?_, by simp⟩
        · rw [hstep, heq]
        · rw [hstep, heq]
        · intro e' he' ha
          rcases List.mem_cons.mp he' with rfl | hmem
          · exact le_refl _
          · exact hall e' hmem ha
      · refine Or.inr ⟨e, x :: l1, l2, ?_, ?_, ?_, h4, lt_trans h5 hc.2, ?_, ?_⟩
        · rw [hstep]; exact h1
        · rw [hstep]; exact h2
        · rw [h3]; rfl
        · intro e' he' ha
          rcases List.mem_cons.mp he' with rfl | hmem
          · exact le_of_lt (lt_of_lt_of_le h5 (le_refl _))
          · exact h6 e' hmem ha
        · intro e' he' ha
          rcases List.mem_cons.mp he' with rfl | hmem
          · exact h5
          · exact h7 e' hmem ha
    · have hstep : selectTarget tp (x :: rest) acc = selectTarget tp rest acc := by
        rw [selectTarget, if_neg hc]
      rcases ih acc with ⟨heq, hall⟩ | ⟨e, l1, l2, h1, h2, h3, h4, h5, h6, h7⟩
      · refine Or.inl ⟨by rw [hstep, heq], ?_⟩
        intro e' he' ha
        rcases List.mem_cons.mp he' with rfl | hmem
        · exact not_lt.mp (fun hlt => hc ⟨ha, hlt⟩)
        · exact hall e' hmem ha
      · refine Or.inr ⟨e, x :: l1, l2, ?_, ?_, ?_, h4, h5, ?_, ?_⟩
        · rw [hstep]; exact h1
        · rw [hstep]; exact h2
        · rw [h3]; rfl
        · intro e' he' ha
          rcases List.mem_cons.mp he' with rfl | hmem
          · exact le_of_lt (lt_of_lt_of_le h5 (not_lt.mp (fun hlt => hc ⟨ha, hlt⟩)))
          · exact h6 e' hmem ha
        · intro e' he' ha
          rcases List.mem_cons.mp he' with rfl | hmem
          · exact lt_of_lt_of_le h5 (not_lt.mp (fun hlt => hc ⟨ha, hlt⟩))
          · exact h7 e' hmem ha

/-- C8.  An alive tower whose cooldown has elapsed fires at the nearest
alive enemy strictly within its range — ties broken in favour of the
first enemy encountered — spawning one projectile that carries the
tower's damage and splash radius, and resetting its cooldown to now;
when no alive enemy is within range, no projectile is spawned and the
cooldown is untouched.  (Distances are compared squared; the squared
comparison agrees with the source's Euclidean one for the nonnegative
ranges of every archetype.) -/
theorem c8_combat_firing (c : GameCfg) (now : ℚ) (es : List Enemy) (t : Tower)
    (nid : ℕ) (halive : t.alive = true) (hcs : canShoot now t = true) :
    ((∀ e' ∈ es, e'.alive = true → ¬ dist2 e'.pos t.pos < t.range * t.range) →
      findTarget t es = none ∧ combatTowerStep c now es t nid = (t, none, nid)) ∧
    (∀ e, findTarget t es = some e →
      e.alive = true ∧ dist2 e.pos t.pos < t.range * t.range ∧
      (∀ e' ∈ es, e'.alive = true → dist2 e.pos t.pos ≤ dist2 e'.pos t.pos) ∧
      (∃ l1 l2, es = l1 ++ e :: l2 ∧
        ∀ e' ∈ l1, e'.alive = true → dist2 e.pos t.pos < dist2 e'.pos t.pos) ∧
      (∀ pcfg, getProjectileConfig c (projTypeFor t) = some pcfg →
        combatTowerStep c now es t nid =
          ({ t with lastShot := now },
            some ⟨nid, projTypeFor t, t.pos, true, e.id, pcfg.speed, t.damage,
              t.splashRadius⟩, nid + 1))) := by
  constructor
  · intro hnone
    have hft : findTarget t es = none := by
      rcases selectTarget_spec t.pos es (none, t.range * t.range) with ⟨heq, -⟩ |
        ⟨e, l1, l2, h1, -, h3, h4, h5, -, -⟩
      · rw [findTarget, heq]
      · have hmem : e ∈ es := by
          rw [h3]
          exact List.mem_append_right l1 (List.mem_cons_self e l2)
        exact absurd h5 (hnone e hmem h4)
    refine ⟨hft, ?_⟩
    rw [combatTowerStep, if_neg (by simp [halive]), if_neg (by simp [hcs]), hft]
  · intro e hsome
    rcases selectTarget_spec t.pos es (none, t.range * t.range) with ⟨heq, -⟩ |
      ⟨e', l1, l2, h1, -, h3, h4, h5, h6, h7⟩
    · rw [findTarget, heq] at hsome
      exact absurd hsome (by simp)
    · rw [findTarget, h1] at hsome
      obtain rfl : e = e' := (Option.some.inj hsome).symm
      refine ⟨h4, h5, h6, ⟨l1, l2, h3, h7⟩, ?_⟩
      intro pcfg hpcfg
      rw [combatTowerStep, if_neg (by simp [halive]), if_neg (by simp [hcs])]
      have hft : findTarget t es = some e := by rw [findTarget, h1]
      rw [hft]
      simp [createProjectile, hpcfg]

/-- The combat-witness tower: range 100, fire rate 1, last shot 10
seconds ago. -/
def towerC : Tower :=
  ⟨40, "basic", ⟨0, 0⟩, true, 100, 10, 1, 0, -10⟩

/-- Enemies for the C8 witness: a dead enemy close by, an alive enemy
out of range, and two alive enemies at the same minimal distance 5
(squared 25) — the first of which must win the tie. -/
def esCombat : List Enemy :=
  [⟨10, "basic", ⟨1, 0⟩, false, 50, 50, 1, 0, 10, 10⟩,
    ⟨11, "basic", ⟨200, 0⟩, true, 50, 50, 1, 0, 10, 10⟩,
    ⟨12, "basic", ⟨3, 4⟩, true, 50, 50, 1, 0, 10, 10⟩,
    ⟨13, "basic", ⟨3, 4⟩, true, 50, 50, 1, 0, 10, 10⟩]

/-- Witness for C8: at time 0 `towerC` fires at enemy 12 (the first of
the two tied nearest alive enemies), spawning a basic projectile with
the tower's damage and no splash, and resetting its cooldown. -/
theorem c8_combat_firing_witness :
    canShoot 0 towerC = true ∧
    findTarget towerC esCombat = some (esCombat.get ⟨2, by norm_num [esCombat]⟩) ∧
    combatTowerStep cfgA 0 esCombat towerC 7 =
      ({ towerC with lastShot := 0 },
        some ⟨7, "basic", ⟨0, 0⟩, true, 12, 5, 10, 0⟩, 8) := by
  have hcs : canShoot 0 towerC = true := by norm_num [canShoot, towerC]
  have hft : findTarget towerC esCombat =
      some (esCombat.get ⟨2, by norm_num [esCombat]⟩) := by
    norm_num [findTarget, selectTarget, esCombat, towerC, dist2]
  have h := (c8_combat_firing cfgA 0 esCombat towerC 7 rfl hcs).2
    (esCombat.get ⟨2, by norm_num [esCombat]⟩) hft
  have hfire := h.2.2.2.2 ⟨5⟩ rfl
  exact ⟨hcs, hft, hfire⟩

end TD
